import Mathlib

/-!
Verification of the test-metrics exporter
(`docker/test-metrics-exporter/exporter.py`).

The aggregator `parse_allure_results` and the serializer
`generate_metrics` are shallowly embedded below.  Python `dict`s are
modelled as insertion-ordered association lists, Python `int`s as
`Nat`/`Int`, and Python `float`s as `ℚ` (the only inexact float
operation in the source is division; all claims are about the exact
mathematical values, and the textual rendering of a rational abstracts
Python's decimal float formatting).  A field read via `dict.get(key,
default)` is modelled as an `Option` field read with `Option.getD`.

Reading one results directory is modelled as a list of `FileContent`:
`glob.glob` yields `[]` for a missing or unreadable directory, so those
cases are the empty list.  Each matching file either is unreadable
(`IOError`, caught), fails to decode as JSON (`json.JSONDecodeError`,
caught), decodes to a JSON value that is not an object (then
`result.get` raises `AttributeError`, which is NOT in the `except`
clause, so the whole pass aborts — modelled with `Except.error`), or
decodes to an object, modelled as an already-read `ResultRecord`.
The per-file diagnostic `print` is a side effect with no influence on
the returned statistics and is modelled as a no-op.
-/

namespace Exporter

/-- One entry of a record's `labels` list; `label.get('name', '')` /
`label.get('value', '')` are modelled by `Option` fields. -/
structure Label where
  name : Option String
  value : Option String
deriving DecidableEq, Repr

/-- One entry of a record's `steps` list; the source reads
`step.get('name', '')` and `step.get('status')` (no default). -/
structure Step where
  name : Option String
  status : Option String
deriving DecidableEq, Repr

/-- A decoded top-level JSON object of one `*-result.json` file, with
exactly the fields the source reads via `result.get`. -/
structure ResultRecord where
  status : Option String
  start : Option Int
  stop : Option Int
  labels : Option (List Label)
  flaky : Option Bool
  steps : Option (List Step)
deriving DecidableEq, Repr

/-- What reading and JSON-decoding one globbed file can yield. -/
inductive FileContent where
  | unreadable
  | invalidJson
  | nonObject
  | record (r : ResultRecord)
deriving DecidableEq, Repr

/-- The `stats` dictionary of `parse_allure_results`.  `flaky_rate` is
used as the flaky-record counter during the scan and replaced by a
percentage during finalization, exactly as in the source. -/
structure Stats where
  total : Nat
  passed : Nat
  failed : Nat
  skipped : Nat
  broken : Nat
  duration_ms : Int
  flaky_rate : ℚ
  by_category : List (String × Nat)
  pass_rate_by_module : List (String × ℚ)
  self_healing_attempts : Nat
  self_healing_success : Nat
  ai_data_count : Nat
deriving DecidableEq, Repr

/-- The initial `stats` dictionary (exporter.py lines 113-126). -/
def initStats : Stats :=
  { total := 0, passed := 0, failed := 0, skipped := 0, broken := 0
    duration_ms := 0, flaky_rate := 0, by_category := []
    pass_rate_by_module := [], self_healing_attempts := 0
    self_healing_success := 0, ai_data_count := 0 }

/-- Scan state: the `stats` dict plus the transient `module_stats` dict
(module ↦ (total, passed)). -/
structure AggState where
  stats : Stats
  modules : List (String × Nat × Nat)
deriving DecidableEq, Repr

/-- The initial scan state (`stats` plus `module_stats = {}`). -/
def initAgg : AggState := { stats := initStats, modules := [] }

/-- Python dict update `if k not in d: d[k] = dflt` followed by an
in-place modification of `d[k]`, on an insertion-ordered assoc list. -/
def updAssoc {α : Type} (k : String) (dflt : α) (f : α → α) :
    List (String × α) → List (String × α)
  | [] => [(k, f dflt)]
  | (k₁, v) :: rest =>
      if k₁ = k then (k₁, f v) :: rest else (k₁, v) :: updAssoc k dflt f rest

/-- Python `value.split('.')` on the character list of `value`
(the separator is the single character `.`). -/
def splitDots : List Char → List (List Char)
  | [] => [[]]
  | c :: cs =>
      if c = '.' then [] :: splitDots cs
      else
        match splitDots cs with
        | [] => [[c]]
        | p :: ps => (c :: p) :: ps

/-- exporter.py line 171:
`module = value.split('.')[-2] if '.' in value else value`.
Python's `[-2]` index is total here because a string containing `.`
splits into at least two parts. -/
def moduleOfPackage (value : String) : String :=
  let cs := value.toList
  if cs.contains '.' then
    let parts := splitDots cs
    String.mk (parts.getD (parts.length - 2) [])
  else value

/-- exporter.py lines 159-176: the body of the `for label in labels`
loop, acting on the pair (`stats['by_category']`, `module_stats`). -/
def processLabel (status : String)
    (acc : List (String × Nat) × List (String × Nat × Nat)) (lab : Label) :
    List (String × Nat) × List (String × Nat × Nat) :=
  let name := lab.name.getD ""
  let value := lab.value.getD ""
  let byCat :=
    if name ∈ (["suite", "feature", "epic"] : List String) then
      updAssoc value 0 (fun c => c + 1) acc.1
    else acc.1
  let mods :=
    if name = "package" then
      let module := moduleOfPackage value
      updAssoc module (0, 0)
        (fun d => (d.1 + 1, if status = "passed" then d.2 + 1 else d.2)) acc.2
    else acc.2
  (byCat, mods)

/-- Whether `sub` is a leading segment of `s` (on character lists). -/
def leadsWith : List Char → List Char → Bool
  | [], _ => true
  | _ :: _, [] => false
  | a :: as, b :: bs => a == b && leadsWith as bs

/-- Whether `sub` occurs contiguously inside `s` (on character lists). -/
def hasSub : List Char → List Char → Bool
  | sub, [] => sub.isEmpty
  | sub, c :: cs => leadsWith sub (c :: cs) || hasSub sub cs

/-- Python `sub in s` (substring containment), with the searched text
already given as a character list. -/
def containsSub (sub : String) (s : List Char) : Bool :=
  hasSub sub.toList s

/-- Python `s.lower()` as a character list (per-character ASCII
lowering, `Char.toLower` on each character). -/
def pyLower (s : String) : List Char :=
  s.toList.map Char.toLower

/-- exporter.py lines 184-191: the body of the `for step in steps`
loop.  Only the three auxiliary counters are touched. -/
def processStep (st : Stats) (step : Step) : Stats :=
  let step_name := pyLower (step.name.getD "")
  let st1 :=
    if containsSub "self-healing" step_name || containsSub "healed" step_name then
      let sta := { st with self_healing_attempts := st.self_healing_attempts + 1 }
      if step.status = some "passed" then
        { sta with self_healing_success := sta.self_healing_success + 1 }
      else sta
    else st
  if containsSub "ai-generated" step_name || containsSub "llm" step_name then
    { st1 with ai_data_count := st1.ai_data_count + 1 }
  else st1

/-- exporter.py lines 139-191: processing of one successfully decoded
record, in source order (total, status counters, duration, labels,
flaky marker, steps). -/
def processRecord (acc : AggState) (r : ResultRecord) : AggState :=
  let stats := acc.stats
  let stats := { stats with total := stats.total + 1 }
  let status := r.status.getD "unknown"
  let stats :=
    if status = "passed" then { stats with passed := stats.passed + 1 }
    else if status = "failed" then { stats with failed := stats.failed + 1 }
    else if status = "skipped" then { stats with skipped := stats.skipped + 1 }
    else if status = "broken" then { stats with broken := stats.broken + 1 }
    else stats
  let start := r.start.getD 0
  let stop := r.stop.getD 0
  let stats := { stats with duration_ms := stats.duration_ms + (stop - start) }
  let labels := r.labels.getD []
  let pair := labels.foldl (processLabel status) (stats.by_category, acc.modules)
  let stats := { stats with by_category := pair.1 }
  let stats :=
    if r.flaky.getD false then { stats with flaky_rate := stats.flaky_rate + 1 }
    else stats
  let steps := r.steps.getD []
  let stats := steps.foldl processStep stats
  { stats := stats, modules := pair.2 }

/-- exporter.py lines 134-195: one iteration of the `for file_path in
result_files` loop.  `IOError` and `json.JSONDecodeError` are caught
(`continue`); a decoded non-object makes `result.get` raise
`AttributeError`, which is not caught and aborts the pass. -/
def processFile (acc : AggState) : FileContent → Except String AggState
  | .unreadable => .ok acc
  | .invalidJson => .ok acc
  | .nonObject => .error "AttributeError"
  | .record r => .ok (processRecord acc r)

/-- The whole `for file_path in result_files` loop. -/
def runFiles : List FileContent → AggState → Except String AggState
  | [], acc => .ok acc
  | f :: fs, acc =>
      match processFile acc f with
      | .error e => .error e
      | .ok next => runFiles fs next

/-- exporter.py lines 197-213: post-loop finalization — flaky-rate
percentage, per-module pass rates, and the two empty-map defaults. -/
def finalizeStats (acc : AggState) : Stats :=
  let stats := acc.stats
  let stats :=
    if stats.total > 0 then
      { stats with flaky_rate := stats.flaky_rate / (stats.total : ℚ) * 100 }
    else stats
  let rates := acc.modules.map (fun md =>
    (md.1, if md.2.1 > 0 then ((md.2.2 : ℚ) / (md.2.1 : ℚ)) * 100 else (0 : ℚ)))
  let stats := { stats with pass_rate_by_module := rates }
  let stats :=
    if stats.by_category.isEmpty then
      { stats with by_category :=
          [("smoke", 0), ("regression", 0), ("api", 0), ("ui", 0)] }
    else stats
  let stats :=
    if stats.pass_rate_by_module.isEmpty then
      { stats with pass_rate_by_module := [("core", 0), ("ui", 0), ("api", 0)] }
    else stats
  stats

/-- exporter.py lines 111-215, `parse_allure_results`: fold the globbed
files into one `Stats`; an uncaught exception inside the loop is the
`.error` case. -/
def parse_allure_results (files : List FileContent) : Except String Stats :=
  match runFiles files initAgg with
  | .error e => .error e
  | .ok acc => .ok (finalizeStats acc)

/-- exporter.py lines 38-108, `generate_metrics`, for an
already-computed `Stats` (the wall-clock timestamp of line 106 is
passed in as `now_ts`).  The successive `metrics.append` calls become
one list literal, in the same order. -/
def generate_metrics (stats : Stats) (now_ts : Int) : String :=
  let metrics : List String :=
    ["# HELP test_total Total number of tests",
     "# TYPE test_total gauge",
     "test_total " ++ toString stats.total,
     "# HELP test_passed_total Number of passed tests",
     "# TYPE test_passed_total gauge",
     "test_passed_total " ++ toString stats.passed,
     "# HELP test_failed_total Number of failed tests",
     "# TYPE test_failed_total gauge",
     "test_failed_total " ++ toString stats.failed,
     "# HELP test_skipped_total Number of skipped tests",
     "# TYPE test_skipped_total gauge",
     "test_skipped_total " ++ toString stats.skipped,
     "# HELP test_broken_total Number of broken tests",
     "# TYPE test_broken_total gauge",
     "test_broken_total " ++ toString stats.broken,
     "# HELP test_execution_duration_ms Total test execution duration in milliseconds",
     "# TYPE test_execution_duration_ms gauge",
     "test_execution_duration_ms " ++ toString stats.duration_ms,
     "# HELP test_flaky_rate Percentage of flaky tests",
     "# TYPE test_flaky_rate gauge",
     "test_flaky_rate " ++ toString stats.flaky_rate,
     "# HELP test_count_by_category Test count by category",
     "# TYPE test_count_by_category gauge"] ++
    stats.by_category.map (fun c =>
      "test_count_by_category\x7bcategory=\"" ++ c.1 ++ "\"\x7d " ++ toString c.2) ++
    ["# HELP test_pass_rate_by_module Pass rate by module",
     "# TYPE test_pass_rate_by_module gauge"] ++
    stats.pass_rate_by_module.map (fun m =>
      "test_pass_rate_by_module\x7bmodule=\"" ++ m.1 ++ "\"\x7d " ++ toString m.2) ++
    ["# HELP self_healing_attempt_count Number of self-healing attempts",
     "# TYPE self_healing_attempt_count counter",
     "self_healing_attempt_count " ++ toString stats.self_healing_attempts,
     "# HELP self_healing_success_count Number of successful self-healing events",
     "# TYPE self_healing_success_count counter",
     "self_healing_success_count " ++ toString stats.self_healing_success,
     "# HELP ai_data_generation_count Number of AI-generated test data items",
     "# TYPE ai_data_generation_count counter",
     "ai_data_generation_count " ++ toString stats.ai_data_count,
     "# HELP test_metrics_last_update_timestamp Last update timestamp",
     "# TYPE test_metrics_last_update_timestamp gauge",
     "test_metrics_last_update_timestamp " ++ toString now_ts]
  String.intercalate "\n" metrics ++ "\n"

/-- A minimal HTTP response shape: status code, optional Content-Type
header, body. -/
structure HttpResponse where
  status : Nat
  contentType : Option String
  body : String
deriving DecidableEq, Repr

/-- exporter.py lines 17-31, `MetricsHandler.do_GET`, abstracted over
the already-rendered `/metrics` body.  `send_response(404)` followed by
`end_headers()` sends an empty body. -/
def do_GET (metricsBody : String) (path : String) : HttpResponse :=
  if path = "/metrics" then
    { status := 200, contentType := some "text/plain; charset=utf-8"
      body := metricsBody }
  else if path = "/health" then
    { status := 200, contentType := some "application/json"
      body := "\x7b\"status\": \"healthy\"\x7d" }
  else
    { status := 404, contentType := none, body := "" }

/-- Full request dispatch.  `MetricsHandler` defines only `do_GET`; for
every other method Python's `http.server.BaseHTTPRequestHandler` finds
no `do_<METHOD>` attribute and calls
`send_error(501, "Unsupported method ...")`, which sends status 501
with a non-empty HTML error body.  That library behaviour is modelled
here; only the GET branch is repository code. -/
def handle_request (metricsBody method path : String) : HttpResponse :=
  if method = "GET" then do_GET metricsBody path
  else
    { status := 501, contentType := some "text/html;charset=utf-8"
      body := "Unsupported method (" ++ method ++ ")" }

/-- The module-extraction rule in the spec's words: the second-to-last
dot-separated segment when the value contains a dot, the whole value
otherwise. -/
def moduleOfPackage_spec (value : String) : String :=
  if value.toList.contains '.' then
    String.mk ((splitDots value.toList).reverse.getD 1 [])
  else value

/-- `passed + failed + skipped + broken`, the left side of the C7
invariant. -/
def sum4 (st : Stats) : Nat :=
  st.passed + st.failed + st.skipped + st.broken

/-- Whether a globbed file decodes to a record (and so increments
`total`). -/
def isRecordFile : FileContent → Bool
  | .record _ => true
  | _ => false

/-- Whether a globbed file decodes to a record carrying `flaky: true`. -/
def isFlakyRecord : FileContent → Bool
  | .record r => r.flaky.getD false
  | _ => false

/-- Number of files of a scan that decode to records. -/
def countRecords (files : List FileContent) : Nat :=
  files.countP isRecordFile

/-- Number of files of a scan that decode to records marked flaky. -/
def countFlaky (files : List FileContent) : Nat :=
  files.countP isFlakyRecord

/-- One metric block of the spec's exposition format: a HELP line, a
TYPE line, then the value lines. -/
def specBlock (name ty help : String) (valueLines : List String) : List String :=
  ("# HELP " ++ name ++ " " ++ help) :: ("# TYPE " ++ name ++ " " ++ ty) :: valueLines

/-- The spec's metric table: the thirteen metrics, in the fixed order,
each with its declared gauge/counter type, scalar metrics with one
value line, category/module metrics with one labeled line per entry. -/
def exposition_spec (stats : Stats) (now_ts : Int) : List String :=
  List.flatten
    [specBlock "test_total" "gauge" "Total number of tests"
       ["test_total " ++ toString stats.total],
     specBlock "test_passed_total" "gauge" "Number of passed tests"
       ["test_passed_total " ++ toString stats.passed],
     specBlock "test_failed_total" "gauge" "Number of failed tests"
       ["test_failed_total " ++ toString stats.failed],
     specBlock "test_skipped_total" "gauge" "Number of skipped tests"
       ["test_skipped_total " ++ toString stats.skipped],
     specBlock "test_broken_total" "gauge" "Number of broken tests"
       ["test_broken_total " ++ toString stats.broken],
     specBlock "test_execution_duration_ms" "gauge"
       "Total test execution duration in milliseconds"
       ["test_execution_duration_ms " ++ toString stats.duration_ms],
     specBlock "test_flaky_rate" "gauge" "Percentage of flaky tests"
       ["test_flaky_rate " ++ toString stats.flaky_rate],
     specBlock "test_count_by_category" "gauge" "Test count by category"
       (stats.by_category.map (fun c =>
         "test_count_by_category\x7bcategory=\"" ++ c.1 ++ "\"\x7d " ++
           toString c.2)),
     specBlock "test_pass_rate_by_module" "gauge" "Pass rate by module"
       (stats.pass_rate_by_module.map (fun m =>
         "test_pass_rate_by_module\x7bmodule=\"" ++ m.1 ++ "\"\x7d " ++
           toString m.2)),
     specBlock "self_healing_attempt_count" "counter"
       "Number of self-healing attempts"
       ["self_healing_attempt_count " ++ toString stats.self_healing_attempts],
     specBlock "self_healing_success_count" "counter"
       "Number of successful self-healing events"
       ["self_healing_success_count " ++ toString stats.self_healing_success],
     specBlock "ai_data_generation_count" "counter"
       "Number of AI-generated test data items"
       ["ai_data_generation_count " ++ toString stats.ai_data_count],
     specBlock "test_metrics_last_update_timestamp" "gauge"
       "Last update timestamp"
       ["test_metrics_last_update_timestamp " ++ toString now_ts]]

def defaultSummary : Stats :=
  { total := 0, passed := 0, failed := 0, skipped := 0, broken := 0
    duration_ms := 0, flaky_rate := 0
    by_category := [("smoke", 0), ("regression", 0), ("api", 0), ("ui", 0)]
    pass_rate_by_module := [("core", 0), ("ui", 0), ("api", 0)]
    self_healing_attempts := 0, self_healing_success := 0, ai_data_count := 0 }

def passedRecord : ResultRecord :=
  { status := some "passed", start := none, stop := none, labels := none
    flaky := none, steps := none }

def mysteryRecord : ResultRecord :=
  { status := some "mystery", start := none, stop := none, labels := none
    flaky := none, steps := none }

def smokeAgg : AggState :=
  { stats :=
      { total := 1, passed := 1, failed := 0, skipped := 0, broken := 0
        duration_ms := 500, flaky_rate := 0, by_category := [("smoke", 1)]
        pass_rate_by_module := [], self_healing_attempts := 0
        self_healing_success := 0, ai_data_count := 0 }
    modules := [] }

def smokeRecord : ResultRecord :=
  { status := some "passed", start := some 1000, stop := some 1500
    labels := some [{ name := some "suite", value := some "smoke" }]
    flaky := some false, steps := none }

instance : DecidableEq (Except String Stats) := fun a b =>
  match a, b with
  | .error x, .error y =>
      if h : x = y then .isTrue (by rw [h]) else .isFalse (by simp [h])
  | .ok x, .ok y =>
      if h : x = y then .isTrue (by rw [h]) else .isFalse (by simp [h])
  | .error x, .ok y => .isFalse (by simp)
  | .ok x, .error y => .isFalse (by simp)

theorem splitDots_length (cs : List Char) :
    (splitDots cs).length = cs.count '.' + 1 := by
  induction cs with
  | nil => simp [splitDots]
  | cons c cs ih =>
    by_cases h : c = '.'
    · simp [splitDots, h, List.count_cons, ih]
    · cases hs : splitDots cs with
      | nil => simp [hs] at ih
      | cons p ps =>
        simp [splitDots, h, hs, List.count_cons]
        simpa [hs] using ih

theorem getD_sub_two_eq_reverse {α : Type} (l : List α) (d : α)
    (h : 2 ≤ l.length) : l.getD (l.length - 2) d = l.reverse.getD 1 d := by
  rw [List.getD_eq_getElem?_getD, List.getD_eq_getElem?_getD,
    List.getElem?_reverse (by omega)]
  congr 1

theorem moduleOfPackage_eq_spec (value : String) :
    moduleOfPackage value = moduleOfPackage_spec value := by
  unfold moduleOfPackage moduleOfPackage_spec
  dsimp only
  by_cases h : value.toList.contains '.' = true
  · have hmem : '.' ∈ value.toList := by simpa using h
    have hcount : 0 < value.toList.count '.' := List.count_pos_iff.mpr hmem
    have hlen : 2 ≤ (splitDots value.toList).length := by
      rw [splitDots_length]; omega
    simp only [h, if_true]
    rw [getD_sub_two_eq_reverse _ _ hlen]
  · rw [if_neg h, if_neg h]

theorem lookup_updAssoc {α : Type} (k : String) (dflt : α) (f : α → α)
    (m : List (String × α)) :
    List.lookup k (updAssoc k dflt f m) =
      some (f ((List.lookup k m).getD dflt)) := by
  induction m with
  | nil => simp [updAssoc, List.lookup]
  | cons kv rest ih =>
    obtain ⟨k₁, v⟩ := kv
    by_cases h : k₁ = k
    · simp [updAssoc, h, List.lookup]
    · have hb : (k == k₁) = false := by
        simpa [beq_iff_eq] using Ne.symm h
      simp [updAssoc, h, List.lookup, hb, ih]

theorem processStep_preserves (st : Stats) (s : Step) :
    (processStep st s).total = st.total ∧
    (processStep st s).passed = st.passed ∧
    (processStep st s).failed = st.failed ∧
    (processStep st s).skipped = st.skipped ∧
    (processStep st s).broken = st.broken ∧
    (processStep st s).duration_ms = st.duration_ms ∧
    (processStep st s).flaky_rate = st.flaky_rate ∧
    (processStep st s).by_category = st.by_category ∧
    (processStep st s).pass_rate_by_module = st.pass_rate_by_module := by
  unfold processStep
  dsimp only
  split_ifs <;> simp

theorem foldl_processStep_preserves (steps : List Step) :
    ∀ st : Stats,
    (steps.foldl processStep st).total = st.total ∧
    (steps.foldl processStep st).passed = st.passed ∧
    (steps.foldl processStep st).failed = st.failed ∧
    (steps.foldl processStep st).skipped = st.skipped ∧
    (steps.foldl processStep st).broken = st.broken ∧
    (steps.foldl processStep st).duration_ms = st.duration_ms ∧
    (steps.foldl processStep st).flaky_rate = st.flaky_rate ∧
    (steps.foldl processStep st).by_category = st.by_category ∧
    (steps.foldl processStep st).pass_rate_by_module = st.pass_rate_by_module := by
  induction steps with
  | nil => intro st; simp
  | cons s rest ih =>
    intro st
    have h1 := processStep_preserves st s
    have h2 := ih (processStep st s)
    simp only [List.foldl_cons]
    obtain ⟨a1, a2, a3, a4, a5, a6, a7, a8, a9⟩ := h1
    obtain ⟨b1, b2, b3, b4, b5, b6, b7, b8, b9⟩ := h2
    exact ⟨b1.trans a1, b2.trans a2, b3.trans a3, b4.trans a4, b5.trans a5,
      b6.trans a6, b7.trans a7, b8.trans a8, b9.trans a9⟩

theorem foldl_processStep_total (steps : List Step) (st : Stats) :
    (steps.foldl processStep st).total = st.total :=
  (foldl_processStep_preserves steps st).1

theorem foldl_processStep_passed (steps : List Step) (st : Stats) :
    (steps.foldl processStep st).passed = st.passed :=
  (foldl_processStep_preserves steps st).2.1

theorem foldl_processStep_failed (steps : List Step) (st : Stats) :
    (steps.foldl processStep st).failed = st.failed :=
  (foldl_processStep_preserves steps st).2.2.1

theorem foldl_processStep_skipped (steps : List Step) (st : Stats) :
    (steps.foldl processStep st).skipped = st.skipped :=
  (foldl_processStep_preserves steps st).2.2.2.1

theorem foldl_processStep_broken (steps : List Step) (st : Stats) :
    (steps.foldl processStep st).broken = st.broken :=
  (foldl_processStep_preserves steps st).2.2.2.2.1

theorem foldl_processStep_duration (steps : List Step) (st : Stats) :
    (steps.foldl processStep st).duration_ms = st.duration_ms :=
  (foldl_processStep_preserves steps st).2.2.2.2.2.1

theorem foldl_processStep_flaky (steps : List Step) (st : Stats) :
    (steps.foldl processStep st).flaky_rate = st.flaky_rate :=
  (foldl_processStep_preserves steps st).2.2.2.2.2.2.1

theorem processRecord_total (acc : AggState) (r : ResultRecord) :
    (processRecord acc r).stats.total = acc.stats.total + 1 := by
  unfold processRecord
  dsimp only
  rw [foldl_processStep_total]
  split_ifs <;> rfl

theorem processRecord_flaky (acc : AggState) (r : ResultRecord) :
    (processRecord acc r).stats.flaky_rate =
      acc.stats.flaky_rate + (if r.flaky.getD false then 1 else 0) := by
  unfold processRecord
  dsimp only
  rw [foldl_processStep_flaky]
  split_ifs <;> simp

theorem processRecord_duration (acc : AggState) (r : ResultRecord) :
    (processRecord acc r).stats.duration_ms =
      acc.stats.duration_ms + (r.stop.getD 0 - r.start.getD 0) := by
  unfold processRecord
  dsimp only
  rw [foldl_processStep_duration]
  split_ifs <;> rfl

theorem processRecord_sum4_le (acc : AggState) (r : ResultRecord) :
    sum4 (processRecord acc r).stats ≤ sum4 acc.stats + 1 := by
  unfold processRecord
  dsimp only
  unfold sum4
  rw [foldl_processStep_passed, foldl_processStep_failed,
    foldl_processStep_skipped, foldl_processStep_broken]
  split_ifs <;> simp <;> omega

theorem runFiles_ok_spec (files : List FileContent) :
    ∀ acc acc', runFiles files acc = .ok acc' →
      acc'.stats.total = acc.stats.total + countRecords files ∧
      acc'.stats.flaky_rate = acc.stats.flaky_rate + (countFlaky files : ℚ) ∧
      sum4 acc'.stats + acc.stats.total ≤ sum4 acc.stats + acc'.stats.total := by
  induction files with
  | nil =>
    intro acc acc' h
    simp only [runFiles] at h
    cases h
    simp [countRecords, countFlaky]
  | cons f fs ih =>
    intro acc acc' h
    cases f with
    | unreadable =>
      have h2 := ih acc acc' (by simpa [runFiles, processFile] using h)
      simpa [countRecords, countFlaky, List.countP_cons, isRecordFile,
        isFlakyRecord] using h2
    | invalidJson =>
      have h2 := ih acc acc' (by simpa [runFiles, processFile] using h)
      simpa [countRecords, countFlaky, List.countP_cons, isRecordFile,
        isFlakyRecord] using h2
    | nonObject =>
      simp [runFiles, processFile] at h
    | record r =>
      have h2 := ih (processRecord acc r) acc'
        (by simpa [runFiles, processFile] using h)
      obtain ⟨ht, hf, hs⟩ := h2
      refine ⟨?_, ?_, ?_⟩
      · rw [ht, processRecord_total]
        simp [countRecords, List.countP_cons, isRecordFile]
        omega
      · rw [hf, processRecord_flaky]
        simp only [countFlaky, List.countP_cons, isFlakyRecord]
        by_cases hfl : r.flaky.getD false <;> simp [hfl] <;> ring
      · have h3 := processRecord_sum4_le acc r
        have h4 := processRecord_total acc r
        omega

theorem runFiles_ok_of_no_nonObject (files : List FileContent)
    (h : ∀ f ∈ files, f ≠ FileContent.nonObject) :
    ∀ acc, ∃ acc', runFiles files acc = .ok acc' := by
  induction files with
  | nil => intro acc; exact ⟨acc, rfl⟩
  | cons f fs ih =>
    intro acc
    have hf : f ≠ FileContent.nonObject := h f (by simp)
    have hrest : ∀ g ∈ fs, g ≠ FileContent.nonObject :=
      fun g hg => h g (by simp [hg])
    cases f with
    | unreadable => simpa [runFiles, processFile] using ih hrest acc
    | invalidJson => simpa [runFiles, processFile] using ih hrest acc
    | nonObject => exact absurd rfl hf
    | record r =>
      simpa [runFiles, processFile] using ih hrest (processRecord acc r)

theorem finalizeStats_counters (acc : AggState) :
    (finalizeStats acc).total = acc.stats.total ∧
    (finalizeStats acc).passed = acc.stats.passed ∧
    (finalizeStats acc).failed = acc.stats.failed ∧
    (finalizeStats acc).skipped = acc.stats.skipped ∧
    (finalizeStats acc).broken = acc.stats.broken ∧
    (finalizeStats acc).duration_ms = acc.stats.duration_ms := by
  unfold finalizeStats
  dsimp only
  split_ifs <;> simp

theorem finalizeStats_flaky (acc : AggState) :
    (finalizeStats acc).flaky_rate =
      if 0 < acc.stats.total then
        acc.stats.flaky_rate / (acc.stats.total : ℚ) * 100
      else acc.stats.flaky_rate := by
  unfold finalizeStats
  dsimp only
  split_ifs <;> simp_all

theorem finalizeStats_by_category (acc : AggState)
    (h : acc.stats.by_category ≠ []) :
    (finalizeStats acc).by_category = acc.stats.by_category := by
  unfold finalizeStats
  dsimp only
  split_ifs <;> simp_all

theorem finalizeStats_rates (acc : AggState) (h : acc.modules ≠ []) :
    (finalizeStats acc).pass_rate_by_module =
      acc.modules.map (fun md =>
        (md.1, if md.2.1 > 0 then ((md.2.2 : ℚ) / (md.2.1 : ℚ)) * 100
               else (0 : ℚ))) := by
  unfold finalizeStats
  dsimp only
  split_ifs <;> simp_all

theorem countFlaky_le_countRecords (files : List FileContent) :
    countFlaky files ≤ countRecords files := by
  refine List.countP_mono_left ?_
  intro f _ hf
  cases f <;> simp_all [isFlakyRecord, isRecordFile]

/-- C2: for an empty scan (no `*-result.json` files, which is also what
`glob.glob` yields for a missing or unreadable results directory), the
aggregation returns, without error, the Summary with total and all four
status counters 0, duration 0, flaky rate 0, the default category map
{smoke: 0, regression: 0, api: 0, ui: 0}, the default module map
{core: 0, ui: 0, api: 0}, both self-healing counters 0 and the
AI-data counter 0 (`defaultSummary` spells out exactly these values). -/
theorem C2_empty_directory_defaults : parse_allure_results [] = .ok defaultSummary := by decide

/-- C1, counterexample: the claim says a file whose content is a
non-object top-level JSON value is skipped while the pass continues, so
one such file alongside K = 1 valid file should yield total = 1.  In
the code, `json.load` succeeds on such a file and `result.get` then
raises `AttributeError`, which the `except` clause does not catch: the
whole pass aborts with an exception instead of returning a Summary. -/
theorem C1_counterexample :
    parse_allure_results [.record passedRecord, .nonObject] =
      .error "AttributeError" := by decide

/-- C1, amended: for every scan containing no valid-JSON-non-object
file, every unreadable or syntactically invalid JSON file is skipped
(with a printed diagnostic, modelled as a no-op) while the pass
continues, and `total` counts exactly the successfully decoded record
files: one invalid file alongside K valid files yields total = K.  A
file that decodes to a non-object top-level value, however, raises an
uncaught `AttributeError` that aborts the entire pass. -/
theorem C1_amended_skip_invalid (files : List FileContent)
    (h : ∀ f ∈ files, f ≠ FileContent.nonObject) :
    ∃ stats, parse_allure_results files = .ok stats ∧
      stats.total = countRecords files := by
  obtain ⟨acc, hacc⟩ := runFiles_ok_of_no_nonObject files h initAgg
  refine ⟨finalizeStats acc, ?_, ?_⟩
  · unfold parse_allure_results
    rw [hacc]
  · have h1 := (runFiles_ok_spec files initAgg acc hacc).1
    have h2 := (finalizeStats_counters acc).1
    simp only [initAgg, initStats] at h1
    omega

/-- Witness for C1 amended: one valid record file alongside one
invalid-JSON file and one unreadable file yields total = 1. -/
theorem C1_amended_skip_invalid_witness :
    ∃ stats,
      parse_allure_results [.record passedRecord, .invalidJson, .unreadable] =
        .ok stats ∧
      stats.total = countRecords [.record passedRecord, .invalidJson, .unreadable] :=
  C1_amended_skip_invalid _ (by decide)

/-- C4, counterexample: the claim says every method/path pair other
than GET /metrics and GET /health — including non-GET methods on any
path — gets status 404 with an empty body.  `MetricsHandler` defines
only `do_GET`, so Python's `BaseHTTPRequestHandler` answers a POST to
/metrics with 501 (Unsupported method) and a non-empty error body, not
404. -/
theorem C4_counterexample :
    ¬ ((handle_request "" "POST" "/metrics").status = 404 ∧
       (handle_request "" "POST" "/metrics").body = "") := by decide

/-- C4, amended: every GET request whose path is neither /metrics nor
/health is answered with status 404, no Content-Type header and an
empty body; non-GET methods are answered 501 by the HTTP library
rather than 404. -/
theorem C4_amended_get_404 (metricsBody path : String)
    (h1 : path ≠ "/metrics") (h2 : path ≠ "/health") :
    handle_request metricsBody "GET" path =
      { status := 404, contentType := none, body := "" } := by
  unfold handle_request do_GET
  simp [h1, h2]

/-- Witness for C4 amended: GET /foo is answered 404 with an empty
body. -/
theorem C4_amended_get_404_witness :
    handle_request "" "GET" "/foo" =
      { status := 404, contentType := none, body := "" } :=
  C4_amended_get_404 "" "/foo" (by decide) (by decide)

/-- C3: the body served for GET /metrics is exactly the thirteen
metrics of the spec's table, in that fixed order, each as a `# HELP`
line, then a `# TYPE` line with the specified gauge/counter type, then
one value line per scalar metric and one labeled line per
category/module entry, the whole body newline-terminated
(`exposition_spec` is the spec-side rendering of that table). -/
theorem C3_metrics_exposition_format (stats : Stats) (now_ts : Int) :
    (do_GET (generate_metrics stats now_ts) "/metrics").body =
      String.intercalate "\n" (exposition_spec stats now_ts) ++ "\n" := by
  show generate_metrics stats now_ts = _
  unfold generate_metrics exposition_spec specBlock
  simp [List.flatten, List.append_assoc]

/-- C5: (1) the module extracted from a `package` label value is the
second-to-last dot-separated segment when the value contains a dot and
the whole value otherwise (`moduleOfPackage_spec` is that rule in the
spec's words); (2) processing a `package` label leaves the category map
unchanged and bumps that module's accumulator total by 1 and its passed
count by 1 iff the record status is "passed" (a missing module key
starts from (0, 0)); (3) the finalized per-module pass-rate map sends
each module to passed/total × 100, or 0 when its total is 0. -/
theorem C5_package_module_tracking :
    (∀ value : String, moduleOfPackage value = moduleOfPackage_spec value) ∧
    (∀ (status value : String)
        (acc : List (String × Nat) × List (String × Nat × Nat)),
      (processLabel status acc { name := some "package", value := some value }).1 =
          acc.1 ∧
      List.lookup (moduleOfPackage value)
          (processLabel status acc
            { name := some "package", value := some value }).2 =
        some (((List.lookup (moduleOfPackage value) acc.2).getD (0, 0)).1 + 1,
          ((List.lookup (moduleOfPackage value) acc.2).getD (0, 0)).2 +
            if status = "passed" then 1 else 0)) ∧
    (∀ (stats0 : Stats) (m : String × Nat × Nat) (rest : List (String × Nat × Nat)),
      (finalizeStats { stats := stats0, modules := m :: rest }).pass_rate_by_module =
        (m :: rest).map (fun md =>
          (md.1, if md.2.1 > 0 then ((md.2.2 : ℚ) / (md.2.1 : ℚ)) * 100
                 else (0 : ℚ)))) := by
  refine ⟨moduleOfPackage_eq_spec, ?_, ?_⟩
  · intro status value acc
    constructor
    · unfold processLabel
      simp
    · unfold processLabel
      dsimp only [Option.getD_some]
      rw [if_pos rfl, lookup_updAssoc]
      by_cases h : status = "passed" <;> simp [h]
  · intro stats0 m rest
    exact finalizeStats_rates _ (by simp)

/-- C6: for every step, after lower-casing the step name: a name
containing "self-healing" or "healed" increments the self-healing
attempt counter, and the success counter additionally increments iff
that step's own status is "passed" (`processStep` never sees the parent
record's status, so the parent status is irrelevant by construction);
independently, a name containing "ai-generated" or "llm" increments the
AI-data counter.  The concrete step "LLM Self-Healing retry" with
status "passed" triggers all three counters at once. -/
theorem C6_step_healing_ai_counters :
    (∀ (st : Stats) (s : Step),
      (processStep st s).self_healing_attempts = st.self_healing_attempts +
        (if containsSub "self-healing" (pyLower (s.name.getD "")) ||
            containsSub "healed" (pyLower (s.name.getD "")) then 1 else 0) ∧
      (processStep st s).self_healing_success = st.self_healing_success +
        (if (containsSub "self-healing" (pyLower (s.name.getD "")) ||
             containsSub "healed" (pyLower (s.name.getD ""))) ∧
            s.status = some "passed" then 1 else 0) ∧
      (processStep st s).ai_data_count = st.ai_data_count +
        (if containsSub "ai-generated" (pyLower (s.name.getD "")) ||
            containsSub "llm" (pyLower (s.name.getD "")) then 1 else 0)) ∧
    (processStep initStats
        { name := some "LLM Self-Healing retry", status := some "passed" }).self_healing_attempts = 1 ∧
    (processStep initStats
        { name := some "LLM Self-Healing retry", status := some "passed" }).self_healing_success = 1 ∧
    (processStep initStats
        { name := some "LLM Self-Healing retry", status := some "passed" }).ai_data_count = 1 := by
  refine ⟨?_, by decide, by decide, by decide⟩
  intro st s
  unfold processStep
  dsimp only
  split_ifs <;> simp_all

/-- C7: after every successful aggregation pass,
passed + failed + skipped + broken ≤ total (all five counters are `Nat`
fields, hence non-negative integers by construction), and a record
whose status is outside {passed, failed, skipped, broken}
increments none of the four status counters while still incrementing
`total`. -/
theorem C7_status_invariant :
    (∀ (files : List FileContent) (stats : Stats),
      parse_allure_results files = .ok stats →
        stats.passed + stats.failed + stats.skipped + stats.broken ≤
          stats.total) ∧
    (∀ (acc : AggState) (r : ResultRecord),
      r.status.getD "unknown" ∉
          (["passed", "failed", "skipped", "broken"] : List String) →
        (processRecord acc r).stats.total = acc.stats.total + 1 ∧
        (processRecord acc r).stats.passed = acc.stats.passed ∧
        (processRecord acc r).stats.failed = acc.stats.failed ∧
        (processRecord acc r).stats.skipped = acc.stats.skipped ∧
        (processRecord acc r).stats.broken = acc.stats.broken) := by
  constructor
  · intro files stats h
    unfold parse_allure_results at h
    cases heq : runFiles files initAgg with
    | error e => rw [heq] at h; cases h
    | ok acc =>
      rw [heq] at h
      cases h
      have h1 := (runFiles_ok_spec files initAgg acc heq).2.2
      have h2 := finalizeStats_counters acc
      obtain ⟨g1, g2, g3, g4, g5, g6⟩ := h2
      simp only [sum4, initAgg, initStats] at h1
      omega
  · intro acc r h
    simp only [List.mem_cons, List.not_mem_nil, or_false, not_or] at h
    obtain ⟨h1, h2, h3, h4⟩ := h
    unfold processRecord
    dsimp only
    simp only [foldl_processStep_total, foldl_processStep_passed,
      foldl_processStep_failed, foldl_processStep_skipped,
      foldl_processStep_broken]
    rw [if_neg h1, if_neg h2, if_neg h3, if_neg h4]
    split_ifs <;> simp

/-- Witness for C7: the empty scan satisfies the invariant, and a
record with status "mystery" bumps only `total`. -/
theorem C7_status_invariant_witness :
    (defaultSummary.passed + defaultSummary.failed + defaultSummary.skipped +
        defaultSummary.broken ≤ defaultSummary.total) ∧
    ((processRecord initAgg mysteryRecord).stats.total =
        initAgg.stats.total + 1 ∧
      (processRecord initAgg mysteryRecord).stats.passed = initAgg.stats.passed ∧
      (processRecord initAgg mysteryRecord).stats.failed = initAgg.stats.failed ∧
      (processRecord initAgg mysteryRecord).stats.skipped = initAgg.stats.skipped ∧
      (processRecord initAgg mysteryRecord).stats.broken = initAgg.stats.broken) :=
  ⟨C7_status_invariant.1 [] defaultSummary (by decide), C7_status_invariant.2 initAgg mysteryRecord (by decide)⟩

/-- C8: for every successful aggregation pass, the finalized flaky
rate equals (number of records with flaky true / total) × 100, is 0
when total = 0 (the code leaves the counter, which is then necessarily
0, untouched), and always lies between 0 and 100. -/
theorem C8_flaky_rate_formula (files : List FileContent) (stats : Stats)
    (h : parse_allure_results files = .ok stats) :
    stats.flaky_rate =
      (if 0 < stats.total then
        (countFlaky files : ℚ) / (stats.total : ℚ) * 100 else 0) ∧
    0 ≤ stats.flaky_rate ∧ stats.flaky_rate ≤ 100 := by
  unfold parse_allure_results at h
  cases heq : runFiles files initAgg with
  | error e => rw [heq] at h; cases h
  | ok acc =>
    rw [heq] at h
    cases h
    obtain ⟨ht, hf, -⟩ := runFiles_ok_spec files initAgg acc heq
    have h0 : initAgg.stats.total = 0 := rfl
    have h0f : initAgg.stats.flaky_rate = 0 := rfl
    rw [h0, Nat.zero_add] at ht
    rw [h0f, zero_add] at hf
    have htot := (finalizeStats_counters acc).1
    have hfr := finalizeStats_flaky acc
    rw [ht, hf] at hfr
    have hk : countFlaky files ≤ countRecords files :=
      countFlaky_le_countRecords files
    by_cases hpos : 0 < countRecords files
    · rw [hfr, if_pos hpos]
      have hn : (0 : ℚ) < (countRecords files : ℚ) := by exact_mod_cast hpos
      have hd : (countFlaky files : ℚ) / (countRecords files : ℚ) ≤ 1 :=
        (div_le_one hn).mpr (by exact_mod_cast hk)
      refine ⟨?_, ?_, ?_⟩
      · rw [htot, ht, if_pos hpos]
      · positivity
      · nlinarith
    · rw [hfr, if_neg hpos]
      have hz : countFlaky files = 0 := by omega
      rw [hz]
      rw [htot, ht, if_neg hpos]
      norm_num

/-- Witness for C8: the empty scan has flaky rate 0, within bounds. -/
theorem C8_flaky_rate_formula_witness :
    defaultSummary.flaky_rate =
      (if 0 < defaultSummary.total then
        (countFlaky [] : ℚ) / (defaultSummary.total : ℚ) * 100 else 0) ∧
    0 ≤ defaultSummary.flaky_rate ∧ defaultSummary.flaky_rate ≤ 100 :=
  C8_flaky_rate_formula [] defaultSummary (by decide)

/-- C9: a directory with exactly one result file containing
{"status": "passed", "start": 1000, "stop": 1500, "labels":
[{"name": "suite", "value": "smoke"}], "flaky": false} yields
total = 1, passed = 1, duration 500, by_category = {"smoke": 1} and
flaky rate 0; and in general each label named suite, feature or epic
increments `by_category[value]`, creating the key at 0 if new. -/
theorem C9_smoke_scenario :
    (∃ stats, parse_allure_results [.record smokeRecord] = .ok stats ∧
      stats.total = 1 ∧ stats.passed = 1 ∧ stats.duration_ms = 500 ∧
      stats.by_category = [("smoke", 1)] ∧ stats.flaky_rate = 0) ∧
    (∀ (status : String)
        (acc : List (String × Nat) × List (String × Nat × Nat))
        (nm value : String),
      nm ∈ (["suite", "feature", "epic"] : List String) →
        List.lookup value
            (processLabel status acc { name := some nm, value := some value }).1 =
          some ((List.lookup value acc.1).getD 0 + 1)) := by
  constructor
  · refine ⟨finalizeStats smokeAgg, rfl, ?_, ?_, ?_, ?_, ?_⟩
    · exact ((finalizeStats_counters smokeAgg).1).trans rfl
    · exact ((finalizeStats_counters smokeAgg).2.1).trans rfl
    · exact ((finalizeStats_counters smokeAgg).2.2.2.2.2).trans rfl
    · exact (finalizeStats_by_category smokeAgg (by decide)).trans rfl
    · rw [finalizeStats_flaky]
      norm_num [smokeAgg]
  · intro status acc nm value hmem
    unfold processLabel
    dsimp only [Option.getD_some]
    rw [if_pos hmem, lookup_updAssoc]

/-- Witness for C9: the general category-increment rule instantiated
at a `feature` label with a previously absent key. -/
theorem C9_smoke_scenario_witness :
    ∃ stats, parse_allure_results [.record smokeRecord] = .ok stats ∧
      stats.total = 1 ∧ stats.passed = 1 ∧ stats.duration_ms = 500 ∧
      stats.by_category = [("smoke", 1)] ∧ stats.flaky_rate = 0 ∧
      List.lookup "smoke"
          (processLabel "passed" ([], [])
            { name := some "feature", value := some "smoke" }).1 =
        some ((List.lookup "smoke" ([] : List (String × Nat))).getD 0 + 1) := by
  obtain ⟨stats, h1, h2, h3, h4, h5, h6⟩ := C9_smoke_scenario.1
  exact ⟨stats, h1, h2, h3, h4, h5, h6,
    C9_smoke_scenario.2 "passed" ([], []) "feature" "smoke" (by decide)⟩

/-- C10: a missing `start` or `stop` field is read as 0 when
accumulating the cumulative duration, so a record with start = 1000 and
no stop contributes −1000 and a record with neither field contributes
0, and such records are still parsed (the pass succeeds and counts
them in `total`). -/
theorem C10_duration_missing_fields :
    (∀ (acc : AggState) (r : ResultRecord),
      (processRecord acc r).stats.duration_ms =
        acc.stats.duration_ms + (r.stop.getD 0 - r.start.getD 0)) ∧
    (∃ stats, parse_allure_results
        [.record { status := none, start := some 1000, stop := none
                   labels := none, flaky := none, steps := none }] =
          .ok stats ∧ stats.total = 1 ∧ stats.duration_ms = -1000) ∧
    (∃ stats, parse_allure_results
        [.record { status := none, start := none, stop := none
                   labels := none, flaky := none, steps := none }] =
          .ok stats ∧ stats.total = 1 ∧ stats.duration_ms = 0) := by
  refine ⟨processRecord_duration, ⟨_, rfl, by decide, by decide⟩,
    ⟨_, rfl, by decide, by decide⟩⟩

end Exporter
